import Mathlib

/-!
# fonty Telemetry ETL — verification of the per-message pipeline

Shallow embedding of `src/app.ts`. The pipeline consumes a PubSub message,
parses it as JSON, enriches it with geo data and a remotely resolved font
source name, flattens the dynamic payload into key/value pairs, submits the
record to BigQuery and acknowledges the message.

Modelling conventions:

* Dynamic JavaScript values (the `data: any` payload, axios response bodies,
  BigQuery error objects) are modelled by the inductive `JSValue`.  Numbers
  are modelled as integers (no claim depends on float formatting).  Objects
  are association lists in property-iteration order; the telemetry payloads
  at issue use non-numeric string keys, for which ECMAScript iteration order
  is insertion order.
* A thrown JavaScript exception is an `Except JsError` error value.  Member
  access on `null`/`undefined` and the `in` operator on a primitive throw
  `TypeError`; `JSON.parse` on malformed bytes throws `SyntaxError`.
* External collaborators (geoip database, the `iso3166-1.json` country
  table, axios, the BigQuery sink) are parameters of the pipeline,
  collected in `Env`.
* Side effects are tracked explicitly: the process-wide `_sourceCache`, the
  number of remote fetches issued, the number of `message.ack()` calls and
  the `console.log` lines.
-/

/-- A thrown JavaScript exception, by kind. -/
inductive JsError
  | typeError
  | syntaxError
deriving DecidableEq, Repr

/-- A dynamic JavaScript value (JSON values plus `undefined`). -/
inductive JSValue
  | null
  | undef
  | bool (b : Bool)
  | num (n : Int)
  | str (s : String)
  | arr (items : List JSValue)
  | obj (fields : List (String × JSValue))
deriving Repr

/-- `v === null`. -/
def isNullV : JSValue → Bool
  | .null => true
  | _ => false

mutual

/-- JavaScript `String(v)` conversion, as used by the flattening step.
Array conversion joins the elements' conversions with `,`, rendering
`null`/`undefined` elements as the empty string; objects convert to
`[object Object]`. -/
def jsToString : JSValue → String
  | .null => "null"
  | JSValue.undef => "undefined"
  | .bool b => if b then "true" else "false"
  | .num n => toString n
  | .str s => s
  | .arr items => jsArrJoin items
  | .obj _ => "[object Object]"

/-- Conversion of one array element inside `String(array)`. -/
def jsElemStr : JSValue → String
  | .null => ""
  | JSValue.undef => ""
  | v => jsToString v

/-- `Array.prototype.toString`: comma-join of the elements. -/
def jsArrJoin : List JSValue → String
  | [] => ""
  | [x] => jsElemStr x
  | x :: xs => jsElemStr x ++ "," ++ jsArrJoin xs

end

/-- Decimal digits to a number, accumulator style; `none` on a non-digit. -/
def strDigits? : List Char → Nat → Option Nat
  | [], acc => some acc
  | c :: cs, acc => if c.isDigit then strDigits? cs (acc * 10 + (c.toNat - 48)) else none

/-- Array-index reading of a property key: `some i` when the key is a
(non-empty) string of decimal digits denoting `i`. -/
def strToIndex? (s : String) : Option Nat :=
  match s.data with
  | [] => none
  | cs => strDigits? cs 0

/-- First-match lookup in an object's field list (fields have unique keys,
so first match is the match); absent key gives `undefined`. -/
def jsAssocGet : List (String × JSValue) → String → JSValue
  | [], _ => JSValue.undef
  | kv :: rest, k => if kv.1 = k then kv.2 else jsAssocGet rest k

/-- Property write on an object's field list: an existing key keeps its
position and gets the new value, a new key is appended (JavaScript
property-creation order). -/
def jsAssocSet : List (String × JSValue) → String → JSValue → List (String × JSValue)
  | [], k, v => [(k, v)]
  | kv :: rest, k, v => if kv.1 = k then (k, v) :: rest else kv :: jsAssocSet rest k v

/-- Non-throwing property read `target[key]` for a non-null target.
String indexing/`length` properties of primitives are not used by the
pipeline and yield `undefined` here. -/
def jsGetKey : JSValue → String → JSValue
  | .obj fields, k => jsAssocGet fields k
  | .arr items, k =>
    match strToIndex? k with
    | some i => (items.get? i).getD JSValue.undef
    | none => JSValue.undef
  | _, _ => JSValue.undef

/-- Property read `target[key]` with JavaScript throwing semantics:
`null`/`undefined` targets throw `TypeError`. -/
def jsMember (v : JSValue) (k : String) : Except JsError JSValue :=
  match v with
  | .null => .error .typeError
  | JSValue.undef => .error .typeError
  | v => .ok (jsGetKey v k)

/-- The `'key' in target` operator: key test on objects, index test on
arrays, `TypeError` on any primitive (including `undefined`). -/
def jsIn (k : String) : JSValue → Except JsError Bool
  | .obj fields => .ok ((fields.map Prod.fst).contains k)
  | .arr items =>
    .ok (match strToIndex? k with
         | some i => decide (i < items.length)
         | none => false)
  | _ => .error .typeError

/-- `Object.keys`: field names of an object, index strings of an array or a
string, `[]` for other primitives, `TypeError` on `null`/`undefined`. -/
def objectKeys : JSValue → Except JsError (List String)
  | .null => .error .typeError
  | JSValue.undef => .error .typeError
  | .obj fields => .ok (fields.map Prod.fst)
  | .arr items => .ok ((List.range items.length).map toString)
  | .str s => .ok ((List.range s.length).map toString)
  | _ => .ok []

/-- Property assignment `target[key] = v`.  In the pipeline the target has
always passed the `in` check as an object; other targets are returned
unchanged (unreachable). -/
def jsSetKey : JSValue → String → JSValue → JSValue
  | .obj fields, k, v => .obj (jsAssocSet fields k v)
  | p, _, _ => p

/-- Geo data for one IP address, as returned by `geoip.lookup`
(coordinates modelled as integers). -/
structure GeoInfo where
  country : String
  region : String
  ll : Int × Int
deriving Repr

/-- One entry of the `iso3166-1.json` country table. -/
structure CountryRec where
  name : String
deriving Repr

/-- Outcome of one `axios.get`: a 2xx response with its parsed body, or a
rejection (network error or non-2xx status). -/
inductive FetchResult
  | success (body : JSValue)
  | failure
deriving Repr

/-- The process-wide `_sourceCache` object mapping URL → cached value. -/
abbrev SourceCache := List (String × JSValue)

/-- An incoming telemetry event, fields as declared by the
`IncomingTelemetryEvent` interface; the open-ended `data` payload stays
dynamic (`undef` when the JSON object lacks the key). -/
structure IncomingTelemetryEvent where
  ip_address : String
  server_timestamp : Int
  timestamp : String
  status_code : Int
  event_type : String
  execution_time : Int
  fonty_version : String
  os_family : String
  os_version : String
  python_version : String
  data : JSValue
deriving Repr

/-- One flattened event-data entry; a null payload value is kept as an
explicit null marker (`none`), not coerced to a string. -/
structure EventData where
  key : String
  value : Option String
deriving Repr

/-- The processed telemetry event assembled for the sink.  `geo_country`
is `Option String` because of the `|| null` fallback on the country name. -/
structure ProcessedTelemetryEvent where
  server_timestamp : Int
  timestamp : String
  geo_country_code : String
  geo_country : Option String
  geo_region : String
  geo_coords : String
  status_code : Int
  event_type : String
  execution_time : Int
  fonty_version : String
  os_family : String
  os_version : String
  python_version : String
  event_data : List EventData
deriving Repr

/-- External collaborators of the pipeline: the geoip database, the ISO
country-name table, the HTTP client and the BigQuery sink (which may
reject with an arbitrary error value). -/
structure Env where
  geoLookup : String → Option GeoInfo
  iso3166 : String → Option CountryRec
  fetch : String → FetchResult
  sink : ProcessedTelemetryEvent → Except JSValue Unit

/-- Result of one `resolveFontSource` call: its return value, the cache
afterwards, and how many remote fetches were issued (0 or 1). -/
structure ResolveResult where
  value : JSValue
  cache : SourceCache
  fetches : Nat
deriving Repr

/-- `resolveFontSource(sourceUrl)`.  A cache hit returns the cached value
without fetching.  Otherwise one fetch is issued inside `try`: on axios
rejection, or when `res.data.name` itself throws (null body), the bare
`catch` returns `null` and nothing is cached; otherwise `res.data.name`
(which is `undefined` when the body lacks a `name` field) is cached and
returned. -/
def resolveFontSource (fetch : String → FetchResult) (cache : SourceCache)
    (sourceUrl : String) : ResolveResult :=
  if (cache.map Prod.fst).contains sourceUrl then
    ⟨jsAssocGet cache sourceUrl, cache, 0⟩
  else
    match fetch sourceUrl with
    | .failure => ⟨.null, cache, 1⟩
    | .success body =>
      match jsMember body "name" with
      | .error _ => ⟨.null, cache, 1⟩
      | .ok v => ⟨v, jsAssocSet cache sourceUrl v, 1⟩

/-- The `source_name` resolution step of `processMessage`:
`if (data.data !== null && 'source_url' in data.data) data.data['source_name'] = await resolveFontSource(data.data.source_url)`.
Returns the (possibly augmented) payload, the cache and the fetch count, or
the thrown error (the `in` operator on a primitive payload).  The URL
argument is coerced to a property key, i.e. `String(value)`. -/
def sourceStep (env : Env) (cache : SourceCache) (payload : JSValue) :
    Except JsError (JSValue × SourceCache × Nat) :=
  match payload with
  | .null => .ok (payload, cache, 0)
  | p =>
    match jsIn "source_url" p with
    | .error e => .error e
    | .ok false => .ok (p, cache, 0)
    | .ok true =>
      let url := jsToString (jsGetKey p "source_url")
      let r := resolveFontSource env.fetch cache url
      .ok (jsSetKey p "source_name" r.value, r.cache, r.fetches)

/-- Flattened value of one payload entry:
`data.data[key] === null ? null : String(data.data[key])`. -/
def flatVal (v : JSValue) : Option String :=
  if isNullV v then none else some (jsToString v)

/-- The flattening step: `eventData = []` stays empty for a null payload,
otherwise `Object.keys(data.data).map(key => ({key, value: ...}))`. -/
def flattenEventData (payload : JSValue) : Except JsError (List EventData) :=
  if isNullV payload then .ok []
  else
    match objectKeys payload with
    | .error e => .error e
    | .ok keys => .ok (keys.map fun k => ⟨k, flatVal (jsGetKey payload k)⟩)

/-- The `ProcessedTelemetryEvent` literal of lines 119–134, for a geo hit
`g` with country-table entry `entry`; `entry.name || null` maps an empty
name to null. -/
def craftRecord (d : IncomingTelemetryEvent) (g : GeoInfo) (entry : CountryRec)
    (eventData : List EventData) : ProcessedTelemetryEvent where
  server_timestamp := d.server_timestamp
  timestamp := d.timestamp
  geo_country_code := g.country
  geo_country := if entry.name = "" then none else some entry.name
  geo_region := g.region
  geo_coords := toString g.ll.1 ++ ", " ++ toString g.ll.2
  status_code := d.status_code
  event_type := d.event_type
  execution_time := d.execution_time
  fonty_version := d.fonty_version
  os_family := d.os_family
  os_version := d.os_version
  python_version := d.python_version
  event_data := eventData

/-- Assembly of the `ProcessedTelemetryEvent` (lines 119–134).
`geo.country` on a null lookup result throws, as does `.name` on a missing
`iso3166[geo.country]` entry. -/
def craftProcessed (env : Env) (d : IncomingTelemetryEvent)
    (geo : Option GeoInfo) (eventData : List EventData) :
    Except JsError ProcessedTelemetryEvent :=
  match geo with
  | none => .error .typeError
  | some g =>
    match env.iso3166 g.country with
    | none => .error .typeError
    | some entry => .ok (craftRecord d g entry eventData)

/-- The catch handler of the sink submission:
`console.log(err.errors[0].error)`.  Each member access can itself throw
when the rejection value does not have the structured per-record shape; on
success the accessed value is what gets logged. -/
def logInsertError (err : JSValue) : Except JsError JSValue :=
  match jsMember err "errors" with
  | .error e => .error e
  | .ok es =>
    match jsMember es "0" with
    | .error e => .error e
    | .ok e0 =>
      match jsMember e0 "error" with
      | .error e => .error e
      | .ok ev => .ok ev

/-- Observable result of one `processMessage` invocation: the completed
record or the thrown error, the `_sourceCache` afterwards, the number of
remote fetches issued, the number of `message.ack()` calls, and the logged
lines. -/
structure PMResult where
  outcome : Except JsError ProcessedTelemetryEvent
  cache : SourceCache
  fetches : Nat
  ackCount : Nat
  logged : List JSValue

/-- The pipeline stages after a successful parse and geo lookup, in source
order: source-name resolution, flattening, record assembly, sink
submission with its logged-and-still-acknowledged failure path, then
`message.ack()`. -/
def processParsed (env : Env) (cache : SourceCache)
    (d : IncomingTelemetryEvent) (geo : Option GeoInfo) : PMResult :=
  match sourceStep env cache d.data with
  | .error e => ⟨.error e, cache, 0, 0, []⟩
  | .ok s =>
    match flattenEventData s.1 with
    | .error e => ⟨.error e, s.2.1, s.2.2, 0, []⟩
    | .ok eventData =>
      match craftProcessed env d geo eventData with
      | .error e => ⟨.error e, s.2.1, s.2.2, 0, []⟩
      | .ok processed =>
        match env.sink processed with
        | .ok _ => ⟨.ok processed, s.2.1, s.2.2, 1, []⟩
        | .error err =>
          match logInsertError err with
          | .error e => ⟨.error e, s.2.1, s.2.2, 0, []⟩
          | .ok line => ⟨.ok processed, s.2.1, s.2.2, 1, [line]⟩

/-- `processMessage`: parse the message body (`none` models unparseable
bytes, on which `JSON.parse` throws before anything else runs), look up
geo data, then run the remaining stages. -/
def processMessage (env : Env) (cache : SourceCache)
    (msg : Option IncomingTelemetryEvent) : PMResult :=
  match msg with
  | none => ⟨.error .syntaxError, cache, 0, 0, []⟩
  | some d => processParsed env cache d (env.geoLookup d.ip_address)

/-! ## Helper lemmas about the JavaScript object model -/

/-- Setting a key and reading it back yields the written value. -/
theorem jsAssocGet_set_self (c : List (String × JSValue)) (k : String) (v : JSValue) :
    jsAssocGet (jsAssocSet c k v) k = v := by
  induction c with
  | nil => simp [jsAssocSet, jsAssocGet]
  | cons kv rest ih =>
    by_cases h : kv.1 = k
    · simp [jsAssocSet, jsAssocGet, h]
    · simp [jsAssocSet, jsAssocGet, h, ih]

/-- The written key is among the keys after a set. -/
theorem jsAssocSet_mem_keys (c : List (String × JSValue)) (k : String) (v : JSValue) :
    k ∈ (jsAssocSet c k v).map Prod.fst := by
  induction c with
  | nil => simp [jsAssocSet]
  | cons kv rest ih =>
    by_cases h : kv.1 = k
    · simp [jsAssocSet, h]
    · simp only [jsAssocSet, h, if_false, List.map_cons, List.mem_cons]
      exact Or.inr ih

/-- Writing an absent key appends it, preserving the field order. -/
theorem jsAssocSet_not_mem (fs : List (String × JSValue)) (k : String) (v : JSValue)
    (h : k ∉ fs.map Prod.fst) : jsAssocSet fs k v = fs ++ [(k, v)] := by
  induction fs with
  | nil => rfl
  | cons kv rest ih =>
    simp only [List.map_cons, List.mem_cons, not_or] at h
    have h1 : ¬ kv.1 = k := fun e => h.1 e.symm
    simp [jsAssocSet, h1, ih h.2]

/-- Looking up each key of a duplicate-free field list recovers the
corresponding value. -/
theorem map_keys_get (fs : List (String × JSValue))
    (h : (fs.map Prod.fst).Nodup) :
    (fs.map Prod.fst).map (fun k => (⟨k, flatVal (jsAssocGet fs k)⟩ : EventData)) =
      fs.map (fun kv => (⟨kv.1, flatVal kv.2⟩ : EventData)) := by
  induction fs with
  | nil => rfl
  | cons kv rest ih =>
    simp only [List.map_cons] at h
    obtain ⟨hni, hnd⟩ := List.nodup_cons.mp h
    simp only [List.map_cons, jsAssocGet, if_pos rfl]
    congr 1
    rw [List.map_congr_left (g := fun k => (⟨k, flatVal (jsAssocGet rest k)⟩ : EventData))
        (fun k hk => by
          have hne : ¬ kv.1 = k := fun e => hni (e ▸ hk)
          simp [jsAssocGet, hne])]
    exact ih hnd

/-- Flattening a duplicate-free object yields one entry per field, in
field order, with the flattened value of each field. -/
theorem flatten_obj_eq (fs : List (String × JSValue))
    (h : (fs.map Prod.fst).Nodup) :
    flattenEventData (.obj fs) =
      .ok (fs.map (fun kv => (⟨kv.1, flatVal kv.2⟩ : EventData))) := by
  have hu : flattenEventData (.obj fs) =
      .ok ((fs.map Prod.fst).map fun k => (⟨k, flatVal (jsAssocGet fs k)⟩ : EventData)) := rfl
  rw [hu, map_keys_get fs h]

/-! ## Stage lemmas for `processMessage` -/

/-- A null payload skips the source-name step. -/
theorem sourceStep_null (env : Env) (cache : SourceCache) :
    sourceStep env cache .null = .ok (.null, cache, 0) := rfl

/-- An `undefined` payload makes the `in` operator throw. -/
theorem sourceStep_undef (env : Env) (cache : SourceCache) :
    sourceStep env cache JSValue.undef = .error .typeError := rfl

/-- An object payload without `source_url` is passed through unchanged and
no resolution is attempted. -/
theorem sourceStep_obj_noUrl (env : Env) (cache : SourceCache)
    (fs : List (String × JSValue)) (h : "source_url" ∉ fs.map Prod.fst) :
    sourceStep env cache (.obj fs) = .ok (.obj fs, cache, 0) := by
  simp [sourceStep, jsIn, h]

/-- An object payload with `source_url` resolves it (with the property-key
string coercion of its value) and writes the result under `source_name`. -/
theorem sourceStep_obj_url (env : Env) (cache : SourceCache)
    (fs : List (String × JSValue)) (h : "source_url" ∈ fs.map Prod.fst) :
    sourceStep env cache (.obj fs) =
      .ok (.obj (jsAssocSet fs "source_name"
            (resolveFontSource env.fetch cache
              (jsToString (jsAssocGet fs "source_url"))).value),
          (resolveFontSource env.fetch cache
            (jsToString (jsAssocGet fs "source_url"))).cache,
          (resolveFontSource env.fetch cache
            (jsToString (jsAssocGet fs "source_url"))).fetches) := by
  simp [sourceStep, jsIn, h, jsGetKey, jsSetKey]

/-- Unfolding `craftProcessed` when geo and country lookups both hit. -/
theorem craftProcessed_some (env : Env) (d : IncomingTelemetryEvent) (g : GeoInfo)
    (entry : CountryRec) (ed : List EventData) (hi : env.iso3166 g.country = some entry) :
    craftProcessed env d (some g) ed = .ok (craftRecord d g entry ed) := by
  simp [craftProcessed, hi]

/-- The record assembly ignores the event's IP address. -/
theorem craftProcessed_ip_inv (env : Env) (d : IncomingTelemetryEvent) (ip2 : String)
    (geo : Option GeoInfo) (ed : List EventData) :
    craftProcessed env { d with ip_address := ip2 } geo ed = craftProcessed env d geo ed := by
  cases geo with
  | none => rfl
  | some g => cases env.iso3166 g.country <;> rfl

/-- `processMessage` on a parseable message defers to the staged pipeline
with the geo lookup of the event's IP. -/
theorem processMessage_some (env : Env) (cache : SourceCache) (d : IncomingTelemetryEvent) :
    processMessage env cache (some d) = processParsed env cache d (env.geoLookup d.ip_address) := rfl

/-- Full characterization of the staged pipeline once the source-name,
flattening and assembly stages succeed, by sink behavior: a successful
submission acknowledges; a rejection whose error survives
`err.errors[0].error` is logged and still acknowledges; a rejection whose
error does not is rethrown from the catch handler and prevents the
acknowledgment. -/
theorem processParsed_eq (env : Env) (cache : SourceCache) (d : IncomingTelemetryEvent)
    (geo : Option GeoInfo) (p1 : JSValue) (c1 : SourceCache) (f1 : Nat)
    (ed : List EventData) (pe : ProcessedTelemetryEvent)
    (h1 : sourceStep env cache d.data = .ok (p1, c1, f1))
    (h2 : flattenEventData p1 = .ok ed)
    (h3 : craftProcessed env d geo ed = .ok pe) :
    (env.sink pe = .ok () → processParsed env cache d geo = ⟨.ok pe, c1, f1, 1, []⟩) ∧
    (∀ er line, env.sink pe = .error er → logInsertError er = .ok line →
        processParsed env cache d geo = ⟨.ok pe, c1, f1, 1, [line]⟩) ∧
    (∀ er e, env.sink pe = .error er → logInsertError er = .error e →
        processParsed env cache d geo = ⟨.error e, c1, f1, 0, []⟩) := by
  refine ⟨fun hs => ?_, fun er line hs hl => ?_, fun er e hs hl => ?_⟩
  · simp [processParsed, h1, h2, h3, hs]
  · simp [processParsed, h1, h2, h3, hs, hl]
  · simp [processParsed, h1, h2, h3, hs, hl]

/-- The staged pipeline aborts without acknowledgment when the
source-name step throws. -/
theorem processParsed_sourceError (env : Env) (cache : SourceCache)
    (d : IncomingTelemetryEvent) (geo : Option GeoInfo) (e : JsError)
    (h1 : sourceStep env cache d.data = .error e) :
    processParsed env cache d geo = ⟨.error e, cache, 0, 0, []⟩ := by
  simp [processParsed, h1]

/-- The staged pipeline aborts without acknowledgment when the record
assembly throws (null geo lookup or missing country-table entry). -/
theorem processParsed_craftError (env : Env) (cache : SourceCache)
    (d : IncomingTelemetryEvent) (geo : Option GeoInfo) (p1 : JSValue)
    (c1 : SourceCache) (f1 : Nat) (ed : List EventData) (e : JsError)
    (h1 : sourceStep env cache d.data = .ok (p1, c1, f1))
    (h2 : flattenEventData p1 = .ok ed)
    (h3 : craftProcessed env d geo ed = .error e) :
    processParsed env cache d geo = ⟨.error e, c1, f1, 0, []⟩ := by
  simp [processParsed, h1, h2, h3]

/-! ## Concrete fixtures for witnesses and counterexamples -/

/-- A geo hit as `geoip.lookup` would report for a mapped US address. -/
def geoUS : GeoInfo := ⟨"US", "CA", (37, -122)⟩

/-- A one-entry ISO country table containing only `US`. -/
def isoUS : String → Option CountryRec :=
  fun c => if c = "US" then some ⟨"United States"⟩ else none

/-- Environment where every geo lookup misses (private, malformed or
unmapped address): `geoip.lookup` returns null. -/
def envUnknownGeo : Env :=
  ⟨fun _ => none, isoUS, fun _ => .failure, fun _ => .ok ()⟩

/-- Environment where geo lookup reports a country code that has no entry
in the ISO country table. -/
def envMissingCountry : Env :=
  ⟨fun _ => some ⟨"XX", "00", (0, 0)⟩, isoUS, fun _ => .failure, fun _ => .ok ()⟩

/-- Benign environment: geo and country table hit, fetches fail, sink
accepts. -/
def envOk : Env :=
  ⟨fun _ => some geoUS, isoUS, fun _ => .failure, fun _ => .ok ()⟩

/-- Environment whose sink always rejects with a bare object carrying no
`errors` field. -/
def envSinkBare : Env :=
  ⟨fun _ => some geoUS, isoUS, fun _ => .failure, fun _ => .error (.obj [])⟩

/-- Environment whose sink always rejects with the structured per-record
error shape `{errors: [{error: "boom"}]}`. -/
def envSinkStructured : Env :=
  ⟨fun _ => some geoUS, isoUS, fun _ => .failure,
   fun _ => .error (.obj [("errors", .arr [.obj [("error", .str "boom")]])])⟩

/-- An event with a private IP address and a null payload. -/
def evPrivate : IncomingTelemetryEvent :=
  ⟨"10.0.0.1", 1, "t", 200, "e", 5, "v", "os", "1", "3", .null⟩

/-- An event with a resolvable IP address and a null payload. -/
def evNull : IncomingTelemetryEvent :=
  ⟨"8.8.8.8", 1, "t", 200, "e", 5, "v", "os", "1", "3", .null⟩

/-- A fetcher whose responses are 2xx but whose bodies lack a `name`
field. -/
def fetchNoName : String → FetchResult := fun _ => .success (.obj [])

/-! ## C1 -/

/-- C1: the claim says an event whose IP is private/malformed/unmapped
(geo lookup returns Unknown) still transforms, with all geo fields null.
The code instead dereferences `geo.country` on the null lookup result:
on such an event `processMessage` throws a `TypeError` and the message is
never acknowledged.  Evaluated at the failing input `evPrivate`
(IP `10.0.0.1`, every lookup in `envUnknownGeo` misses). -/
theorem c1_unknown_geo_throws :
    (processMessage envUnknownGeo [] (some evPrivate)).outcome = .error .typeError ∧
    (processMessage envUnknownGeo [] (some evPrivate)).ackCount = 0 :=
  ⟨rfl, rfl⟩

/-! ## C3 -/

/-- C3: the claim says a resolved geo result whose country code has no
entry in the ISO table yields `geo_country = null` without an error.  The
code instead evaluates `iso3166[geo.country].name`, a member access on
`undefined`: with a geo hit for code `XX` and a table without `XX`,
`processMessage` throws a `TypeError` and never acknowledges. -/
theorem c3_missing_country_throws :
    (processMessage envMissingCountry [] (some evNull)).outcome = .error .typeError ∧
    (processMessage envMissingCountry [] (some evNull)).ackCount = 0 :=
  ⟨rfl, rfl⟩

/-! ## C8 -/

/-- C8: a message whose bytes do not parse as JSON throws out of
`processMessage` before anything else happens: no fetch, no log, no cache
change, and the acknowledgment handle is never invoked. -/
theorem c8_malformed_not_acked (env : Env) (cache : SourceCache) :
    processMessage env cache none = ⟨.error .syntaxError, cache, 0, 0, []⟩ := rfl

/-! ## C10 -/

/-- C10: a payload that is absent/`undefined` (as opposed to the literal
`null`) passes the strict `!== null` guard and makes the
`'source_url' in data.data` check throw a `TypeError`, so the message is
never acknowledged; a payload that is exactly `null` skips both the
source-name step and the `Object.keys` flattening and produces an empty
`event_data`. -/
theorem c10_undefined_payload_throws (env : Env) (cache : SourceCache)
    (d : IncomingTelemetryEvent) :
    (d.data = JSValue.undef →
      processMessage env cache (some d) = ⟨.error .typeError, cache, 0, 0, []⟩) ∧
    (∀ g entry, d.data = .null → env.geoLookup d.ip_address = some g →
      env.iso3166 g.country = some entry → (∀ pe, env.sink pe = .ok ()) →
      ∃ pe, processMessage env cache (some d) = ⟨.ok pe, cache, 0, 1, []⟩ ∧
        pe.event_data = []) := by
  constructor
  · intro hu
    rw [processMessage_some]
    exact processParsed_sourceError env cache d _ .typeError (by rw [hu, sourceStep_undef])
  · intro g entry hn hg hi hs
    refine ⟨craftRecord d g entry [], ?_, rfl⟩
    rw [processMessage_some, hg]
    exact (processParsed_eq env cache d (some g) .null cache 0 [] _
      (by rw [hn, sourceStep_null]) rfl (craftProcessed_some env d g entry [] hi)).1
      (hs _)

/-- Witness for C10 at a concrete input: with an `undefined` payload the
pipeline throws without acknowledging, and with a `null` payload the same
event is acknowledged with empty `event_data`. -/
theorem c10_witness :
    processMessage envOk [] (some { evNull with data := JSValue.undef }) =
      ⟨.error .typeError, [], 0, 0, []⟩ ∧
    ∃ pe, processMessage envOk [] (some evNull) = ⟨.ok pe, [], 0, 1, []⟩ ∧
      pe.event_data = [] :=
  ⟨(c10_undefined_payload_throws envOk [] { evNull with data := JSValue.undef }).1 rfl,
   (c10_undefined_payload_throws envOk [] evNull).2 geoUS ⟨"United States"⟩ rfl rfl rfl
     (fun _ => rfl)⟩

/-! ## C2 -/

/-- C2 counterexample: the claim quantifies over every rejected sink
submission ("including a sink that always rejects"), but the catch handler
evaluates `err.errors[0].error`, which itself throws when the rejection
value lacks the structured shape.  With a sink that always rejects with
the bare object `{}`, the message from the §8 example is NOT acknowledged
and the handler rethrows a `TypeError`. -/
theorem c2_bare_rejection_not_acked :
    (processMessage envSinkBare [] (some evNull)).ackCount = 0 ∧
    (processMessage envSinkBare [] (some evNull)).outcome = .error .typeError ∧
    (processMessage envSinkBare [] (some evNull)).logged = [] :=
  ⟨rfl, rfl, rfl⟩

/-- C2 (amended): for every message whose sink submission is rejected with
an error on which the access `err.errors[0].error` succeeds (in particular
the structured per-record shape of the sink contract), `processMessage`
recovers locally: that error value is logged and the acknowledgment handle
is invoked exactly once.  (A rejection without that shape makes the catch
handler itself throw, and the message is not acknowledged — see the
counterexample.) -/
theorem c2_structured_rejection_acked (env : Env) (cache : SourceCache)
    (d : IncomingTelemetryEvent) (p1 : JSValue) (c1 : SourceCache) (f1 : Nat)
    (ed : List EventData) (pe : ProcessedTelemetryEvent) (er line : JSValue)
    (h1 : sourceStep env cache d.data = .ok (p1, c1, f1))
    (h2 : flattenEventData p1 = .ok ed)
    (h3 : craftProcessed env d (env.geoLookup d.ip_address) ed = .ok pe)
    (h4 : env.sink pe = .error er)
    (h5 : logInsertError er = .ok line) :
    processMessage env cache (some d) = ⟨.ok pe, c1, f1, 1, [line]⟩ := by
  rw [processMessage_some]
  exact (processParsed_eq env cache d _ p1 c1 f1 ed pe h1 h2 h3).2.1 er line h4 h5

/-- Witness for C2: a sink that always rejects with the structured error
`{errors: [{error: "boom"}]}` still results in exactly one
acknowledgment, with the per-record error logged. -/
theorem c2_witness :
    processMessage envSinkStructured [] (some evNull) =
      ⟨.ok (craftRecord evNull geoUS ⟨"United States"⟩ []), [], 0, 1, [.str "boom"]⟩ :=
  c2_structured_rejection_acked envSinkStructured [] evNull .null [] 0 []
    (craftRecord evNull geoUS ⟨"United States"⟩ [])
    (.obj [("errors", .arr [.obj [("error", .str "boom")]])]) (.str "boom")
    rfl rfl rfl rfl rfl

/-! ## C4 -/

/-- C4 counterexample: the claim says a malformed response body (no `name`
field) makes `resolveFontSource` return null.  With a 2xx response whose
body is `{}`, the call instead returns `undefined` (`res.data.name`), which
is moreover written into the cache. -/
theorem c4_missing_name_returns_undefined :
    (resolveFontSource fetchNoName [] "u").value = JSValue.undef ∧
    (resolveFontSource fetchNoName [] "u").value ≠ .null ∧
    (resolveFontSource fetchNoName [] "u").cache = [("u", JSValue.undef)] := by
  refine ⟨rfl, ?_, rfl⟩
  intro h
  rw [show (resolveFontSource fetchNoName [] "u").value = JSValue.undef from rfl] at h
  exact JSValue.noConfusion h

/-- C4 (amended): for an uncached URL, `resolveFontSource` never throws
and behaves as follows.  A fetch rejection (network error or non-2xx)
returns null and caches nothing; a 2xx body on which the `name` access
itself throws (null body) likewise returns null and caches nothing; a 2xx
body whose `name` access yields a value — `undefined` when the field is
missing — returns that value and caches it. -/
theorem c4_resolution_failure_modes (f : String → FetchResult) (cache : SourceCache)
    (url : String) (hmiss : url ∉ cache.map Prod.fst) :
    (f url = .failure → resolveFontSource f cache url = ⟨.null, cache, 1⟩) ∧
    (∀ b, f url = .success b → jsMember b "name" = .error .typeError →
        resolveFontSource f cache url = ⟨.null, cache, 1⟩) ∧
    (∀ b v, f url = .success b → jsMember b "name" = .ok v →
        resolveFontSource f cache url = ⟨v, jsAssocSet cache url v, 1⟩) := by
  refine ⟨fun hf => ?_, fun b hf hn => ?_, fun b v hf hn => ?_⟩
  · simp [resolveFontSource, hmiss, hf]
  · simp [resolveFontSource, hmiss, hf, hn]
  · simp [resolveFontSource, hmiss, hf, hn]

/-- Witness for C4 across the three uncached failure-mode branches:
a rejected fetch, a null body, and a body without `name`. -/
theorem c4_witness :
    resolveFontSource (fun _ => .failure) [] "u" = ⟨.null, [], 1⟩ ∧
    resolveFontSource (fun _ => .success .null) [] "u" = ⟨.null, [], 1⟩ ∧
    resolveFontSource fetchNoName [] "w" = ⟨JSValue.undef, [("w", JSValue.undef)], 1⟩ :=
  ⟨(c4_resolution_failure_modes (fun _ => .failure) [] "u" (by simp)).1 rfl,
   (c4_resolution_failure_modes (fun _ => .success .null) [] "u" (by simp)).2.1 .null rfl rfl,
   (c4_resolution_failure_modes fetchNoName [] "w" (by simp)).2.2 (.obj []) JSValue.undef rfl rfl⟩

/-! ## C5 -/

/-- C5 counterexample: the claim says a failed first resolution is not
cached and the second resolution issues a fresh fetch.  With a 2xx body
lacking `name` — a resolution failure per the spec (§4.2/§6) — the first
call returns `undefined`, the outcome IS cached, and the second call
issues no fetch at all. -/
theorem c5_cached_failure_not_refetched :
    (resolveFontSource fetchNoName [] "q").value = JSValue.undef ∧
    (resolveFontSource fetchNoName [] "q").fetches = 1 ∧
    (resolveFontSource fetchNoName (resolveFontSource fetchNoName [] "q").cache "q").fetches = 0 ∧
    (resolveFontSource fetchNoName (resolveFontSource fetchNoName [] "q").cache "q").value = JSValue.undef :=
  ⟨rfl, rfl, rfl, rfl⟩

/-- C5 (amended): for an uncached URL resolved twice sequentially with the
same fetcher: if the first resolution completes the fetch-and-assign (any
2xx body whose `name` access does not throw, including a missing `name`
yielding `undefined`), the outcome is cached and the second resolution
returns it without a new fetch; if the first resolution hits a fetch
rejection, or a body whose `name` access throws, nothing is cached and the
second resolution issues a fresh fetch. -/
theorem c5_cache_only_completed_fetches (f : String → FetchResult) (cache : SourceCache)
    (url : String) (hmiss : url ∉ cache.map Prod.fst) :
    (∀ b v, f url = .success b → jsMember b "name" = .ok v →
      (resolveFontSource f cache url).fetches = 1 ∧
      resolveFontSource f (resolveFontSource f cache url).cache url =
        ⟨v, (resolveFontSource f cache url).cache, 0⟩) ∧
    (f url = .failure →
      (resolveFontSource f cache url).cache = cache ∧
      (resolveFontSource f cache url).fetches = 1 ∧
      (resolveFontSource f (resolveFontSource f cache url).cache url).fetches = 1) ∧
    (∀ b, f url = .success b → jsMember b "name" = .error .typeError →
      (resolveFontSource f cache url).cache = cache ∧
      (resolveFontSource f cache url).fetches = 1 ∧
      (resolveFontSource f (resolveFontSource f cache url).cache url).fetches = 1) := by
  refine ⟨fun b v hf hn => ?_, fun hf => ?_, fun b hf hn => ?_⟩
  · have hr1 : resolveFontSource f cache url = ⟨v, jsAssocSet cache url v, 1⟩ := by
      simp [resolveFontSource, hmiss, hf, hn]
    have hmem := jsAssocSet_mem_keys cache url v
    rw [hr1]
    exact ⟨rfl, by simp [resolveFontSource, hmem, jsAssocGet_set_self]⟩
  · have hr1 : resolveFontSource f cache url = ⟨.null, cache, 1⟩ := by
      simp [resolveFontSource, hmiss, hf]
    rw [hr1]
    exact ⟨rfl, rfl, by simp [resolveFontSource, hmiss, hf]⟩
  · have hr1 : resolveFontSource f cache url = ⟨.null, cache, 1⟩ := by
      simp [resolveFontSource, hmiss, hf, hn]
    rw [hr1]
    exact ⟨rfl, rfl, by simp [resolveFontSource, hmiss, hf, hn]⟩

/-- Witness for C5: a cached success is returned without a second fetch,
and a rejected fetch is retried with a fresh fetch. -/
theorem c5_witness :
    ((resolveFontSource (fun _ => .success (.obj [("name", .str "Foo")])) [] "u").fetches = 1 ∧
      resolveFontSource (fun _ => .success (.obj [("name", .str "Foo")]))
          (resolveFontSource (fun _ => .success (.obj [("name", .str "Foo")])) [] "u").cache "u" =
        ⟨.str "Foo",
          (resolveFontSource (fun _ => .success (.obj [("name", .str "Foo")])) [] "u").cache, 0⟩) ∧
    ((resolveFontSource (fun _ => .failure) [] "u").cache = [] ∧
      (resolveFontSource (fun _ => .failure) [] "u").fetches = 1 ∧
      (resolveFontSource (fun _ => .failure)
          (resolveFontSource (fun _ => .failure) [] "u").cache "u").fetches = 1) :=
  ⟨(c5_cache_only_completed_fetches (fun _ => .success (.obj [("name", .str "Foo")])) [] "u"
      (by simp)).1 (.obj [("name", .str "Foo")]) (.str "Foo") rfl rfl,
   (c5_cache_only_completed_fetches (fun _ => .failure) [] "u" (by simp)).2.1 rfl⟩

/-! ## C6 -/

/-- C6: the flattening contract at the pipeline level.  A null payload
yields an empty `event_data`; a non-null object payload with duplicate-free
keys and no `source_url` yields exactly one entry per top-level key, in the
payload's iteration order, whose key is the payload key and whose value is
the string conversion of the payload value or the explicit null marker. -/
theorem c6_flatten_contract (env : Env) (cache : SourceCache)
    (d : IncomingTelemetryEvent) (g : GeoInfo) (entry : CountryRec)
    (hg : env.geoLookup d.ip_address = some g)
    (hi : env.iso3166 g.country = some entry)
    (hs : ∀ pe, env.sink pe = .ok ()) :
    (d.data = .null →
      ∃ pe, processMessage env cache (some d) = ⟨.ok pe, cache, 0, 1, []⟩ ∧
        pe.event_data = []) ∧
    (∀ fs, d.data = .obj fs → (fs.map Prod.fst).Nodup →
      "source_url" ∉ fs.map Prod.fst →
      ∃ pe, processMessage env cache (some d) = ⟨.ok pe, cache, 0, 1, []⟩ ∧
        pe.event_data = fs.map (fun kv => (⟨kv.1, flatVal kv.2⟩ : EventData)) ∧
        pe.event_data.length = fs.length) := by
  constructor
  · intro hn
    refine ⟨craftRecord d g entry [], ?_, rfl⟩
    rw [processMessage_some, hg]
    exact (processParsed_eq env cache d (some g) .null cache 0 [] _
      (by rw [hn, sourceStep_null]) rfl (craftProcessed_some env d g entry [] hi)).1 (hs _)
  · intro fs hd hnd hnu
    refine ⟨craftRecord d g entry _, ?_, rfl, by simp [craftRecord]⟩
    rw [processMessage_some, hg]
    exact (processParsed_eq env cache d (some g) (.obj fs) cache 0 _ _
      (by rw [hd, sourceStep_obj_noUrl env cache fs hnu]) (flatten_obj_eq fs hnd)
      (craftProcessed_some env d g entry _ hi)).1 (hs _)

/-- An event with a resolvable IP and a two-key payload without
`source_url`. -/
def evPayload : IncomingTelemetryEvent :=
  { evNull with data := .obj [("a", .num 1), ("b", .null)] }

/-- Witness for C6: a null payload gives empty `event_data`; the payload
`{a: 1, b: null}` gives exactly its two entries in order. -/
theorem c6_witness :
    (∃ pe, processMessage envOk [] (some evNull) = ⟨.ok pe, [], 0, 1, []⟩ ∧
      pe.event_data = []) ∧
    (∃ pe, processMessage envOk [] (some evPayload) = ⟨.ok pe, [], 0, 1, []⟩ ∧
      pe.event_data =
        [("a", JSValue.num 1), ("b", JSValue.null)].map
          (fun kv => (⟨kv.1, flatVal kv.2⟩ : EventData)) ∧
      pe.event_data.length = 2) :=
  ⟨(c6_flatten_contract envOk [] evNull geoUS ⟨"United States"⟩ rfl rfl (fun _ => rfl)).1 rfl,
   (c6_flatten_contract envOk [] evPayload geoUS ⟨"United States"⟩ rfl rfl (fun _ => rfl)).2
     [("a", .num 1), ("b", .null)] rfl (by decide) (by decide)⟩

/-! ## C7 -/

/-- C7: source-name injection.  For an object payload with duplicate-free
keys and no pre-existing `source_name`: when `source_url` is present, its
value is resolved (with the fetch/cache effects of `resolveFontSource`)
and the result is appended as one extra `source_name` entry after the
payload's own entries; when `source_url` is absent, no resolution happens
(zero fetches, cache untouched) and no `source_name` entry appears. -/
theorem c7_source_name_injection (env : Env) (cache : SourceCache)
    (d : IncomingTelemetryEvent) (fs : List (String × JSValue))
    (g : GeoInfo) (entry : CountryRec)
    (hd : d.data = .obj fs)
    (hnd : (fs.map Prod.fst).Nodup)
    (hnn : "source_name" ∉ fs.map Prod.fst)
    (hg : env.geoLookup d.ip_address = some g)
    (hi : env.iso3166 g.country = some entry)
    (hs : ∀ pe, env.sink pe = .ok ()) :
    ("source_url" ∈ fs.map Prod.fst →
      ∃ pe, processMessage env cache (some d) =
          ⟨.ok pe,
            (resolveFontSource env.fetch cache
              (jsToString (jsAssocGet fs "source_url"))).cache,
            (resolveFontSource env.fetch cache
              (jsToString (jsAssocGet fs "source_url"))).fetches, 1, []⟩ ∧
        pe.event_data =
          fs.map (fun kv => (⟨kv.1, flatVal kv.2⟩ : EventData)) ++
            [⟨"source_name", flatVal (resolveFontSource env.fetch cache
              (jsToString (jsAssocGet fs "source_url"))).value⟩] ∧
        pe.event_data.length = fs.length + 1) ∧
    ("source_url" ∉ fs.map Prod.fst →
      ∃ pe, processMessage env cache (some d) = ⟨.ok pe, cache, 0, 1, []⟩ ∧
        pe.event_data = fs.map (fun kv => (⟨kv.1, flatVal kv.2⟩ : EventData)) ∧
        ∀ e ∈ pe.event_data, e.key ≠ "source_name") := by
  constructor
  · intro hmem
    have hnd2 : (((fs ++ [("source_name",
        (resolveFontSource env.fetch cache
          (jsToString (jsAssocGet fs "source_url"))).value)]).map Prod.fst)).Nodup := by
      rw [List.map_append]
      simp only [List.nodup_append, List.map_cons, List.map_nil]
      refine ⟨hnd, List.nodup_singleton _, ?_⟩
      intro a ha hb
      simp only [List.mem_singleton] at hb
      exact hnn (hb ▸ ha)
    have h2 := flatten_obj_eq _ hnd2
    rw [List.map_append] at h2
    refine ⟨craftRecord d g entry _, ?_, rfl, by simp [craftRecord]⟩
    rw [processMessage_some, hg]
    exact (processParsed_eq env cache d (some g) _ _ _ _ _
      (by rw [hd, sourceStep_obj_url env cache fs hmem,
              jsAssocSet_not_mem fs _ _ hnn])
      h2 (craftProcessed_some env d g entry _ hi)).1 (hs _)
  · intro hnu
    refine ⟨craftRecord d g entry _, ?_, rfl, ?_⟩
    · rw [processMessage_some, hg]
      exact (processParsed_eq env cache d (some g) (.obj fs) cache 0 _ _
        (by rw [hd, sourceStep_obj_noUrl env cache fs hnu]) (flatten_obj_eq fs hnd)
        (craftProcessed_some env d g entry _ hi)).1 (hs _)
    · intro e he
      simp only [craftRecord] at he
      obtain ⟨kv, hkv, rfl⟩ := List.mem_map.mp he
      exact fun hEq => hnn (hEq ▸ List.mem_map_of_mem Prod.fst hkv)

/-- Environment whose attribution collaborator answers every fetch with
`{name: "Foo Foundry"}`. -/
def envFetchFoo : Env :=
  ⟨fun _ => some geoUS, isoUS,
   fun _ => .success (.obj [("name", .str "Foo Foundry")]), fun _ => .ok ()⟩

/-- The §8 example event: payload `{a: 1, source_url: "http://x/y"}`. -/
def evSrc : IncomingTelemetryEvent :=
  { evNull with data := .obj [("a", .num 1), ("source_url", .str "http://x/y")] }

/-- Witness for C7 (the §8 worked example): the resolved name appears as
one extra `source_name` entry after the payload's own entries, one fetch
is issued and the name is cached, and the message is acknowledged. -/
theorem c7_witness :
    ∃ pe, processMessage envFetchFoo [] (some evSrc) =
        ⟨.ok pe, [("http://x/y", .str "Foo Foundry")], 1, 1, []⟩ ∧
      pe.event_data =
        [⟨"a", some "1"⟩, ⟨"source_url", some "http://x/y"⟩,
         ⟨"source_name", some "Foo Foundry"⟩] := by
  obtain ⟨pe, hpm, hed, _⟩ := (c7_source_name_injection envFetchFoo [] evSrc
    [("a", .num 1), ("source_url", .str "http://x/y")] geoUS ⟨"United States"⟩
    rfl (by decide) (by decide) rfl rfl (fun _ => rfl)).1 (by decide)
  have hget : jsAssocGet [("a", JSValue.num 1), ("source_url", JSValue.str "http://x/y")]
      "source_url" = JSValue.str "http://x/y" := rfl
  have hurl : jsToString (JSValue.str "http://x/y") = "http://x/y" := by simp [jsToString]
  rw [hget, hurl] at hpm hed
  refine ⟨pe, hpm, ?_⟩
  rw [hed,
    show (resolveFontSource envFetchFoo.fetch [] "http://x/y").value =
      JSValue.str "Foo Foundry" from rfl]
  simp [flatVal, isNullV, jsToString, show toString (1 : Int) = "1" from rfl]

/-! ## C9 -/

/-- The post-parse pipeline never reads the event's IP address (it only
receives the already-computed geo lookup). -/
theorem processParsed_ip_inv (env : Env) (cache : SourceCache)
    (d : IncomingTelemetryEvent) (ip2 : String) (geo : Option GeoInfo) :
    processParsed env cache { d with ip_address := ip2 } geo =
      processParsed env cache d geo := by
  have hdata : ({ d with ip_address := ip2 } : IncomingTelemetryEvent).data = d.data := rfl
  unfold processParsed
  rw [hdata]
  simp only [craftProcessed_ip_inv]

/-- C9: the privacy and flatness invariants of `ProcessedEvent`.  First,
the raw IP address never reaches the record: two events differing only in
their IP address, when the geo database resolves them alike, produce
identical `processMessage` results (the record type itself has no IP
field, so the IP can only influence the output through the geo lookup).
Second, flattening an object payload yields one flat entry per top-level
key — nested objects/arrays are not recursively expanded — and every
entry's value is a plain string or the explicit null marker. -/
theorem c9_privacy_and_flatness :
    (∀ env cache d ip2, env.geoLookup ip2 = env.geoLookup d.ip_address →
      processMessage env cache (some { d with ip_address := ip2 }) =
        processMessage env cache (some d)) ∧
    (∀ fs, (fs.map Prod.fst).Nodup →
      ∃ l, flattenEventData (.obj fs) = .ok l ∧ l.length = fs.length ∧
        ∀ e ∈ l, e.value = none ∨ ∃ s, e.value = some s) := by
  constructor
  · intro env cache d ip2 h
    rw [processMessage_some, processMessage_some,
      show ({ d with ip_address := ip2 } : IncomingTelemetryEvent).ip_address = ip2 from rfl,
      h]
    exact processParsed_ip_inv env cache d ip2 _
  · intro fs h
    refine ⟨_, flatten_obj_eq fs h, by simp, ?_⟩
    intro e _
    cases hv : e.value with
    | none => exact Or.inl rfl
    | some s => exact Or.inr ⟨s, rfl⟩

/-- Witness for C9: changing the IP of the null-payload event (same geo
result) leaves the whole pipeline result unchanged, and a payload with one
nested object flattens to a single flat entry. -/
theorem c9_witness :
    processMessage envOk [] (some { evNull with ip_address := "9.9.9.9" }) =
      processMessage envOk [] (some evNull) ∧
    ∃ l, flattenEventData (.obj [("nested", .obj [("x", .num 1)])]) = .ok l ∧
      l.length = 1 ∧ ∀ e ∈ l, e.value = none ∨ ∃ s, e.value = some s :=
  ⟨c9_privacy_and_flatness.1 envOk [] evNull "9.9.9.9" rfl,
   c9_privacy_and_flatness.2 [("nested", .obj [("x", .num 1)])] (by decide)⟩
